import Mathlib

/-!
Verification of the assume-break debate orchestration engine and its
relevance retrieval engine, by a shallow embedding of the Python source
into Lean.

Conventions of the embedding:
- Python floats used by the scoring engine are modelled as rationals; all
  design constants (3.0, 1.5, 0.75, 2.0, 0.65) are dyadic or exactly
  representable, so rational arithmetic matches the source bit for bit.
- The external difflib SequenceMatcher ratio is an external library call;
  the engine is parameterised over the similarity function
  (named `ratio` throughout), exactly as the source calls it.
- The external text-generation oracle (the LLM) and its free-text reply
  parsers are modelled as an abstract outcome per call: either a
  credential-absence signal, a raised error, or a parsed value.
-/

namespace AssumeBreak

/-- Lowercase a string character by character (ASCII case mapping),
mirroring the Python str.lower calls on the engine's inputs. -/
def lowerStr (s : String) : String := String.mk (s.toList.map Char.toLower)

/-- Uppercase a string character by character (ASCII case mapping),
mirroring Python str.upper. -/
def upperStr (s : String) : String := String.mk (s.toList.map Char.toUpper)

/-- Decide whether the first character list stands at the head of the second. -/
def leadsList : List Char → List Char → Bool
  | [], _ => true
  | _ :: _, [] => false
  | a :: as, b :: bs => a == b && leadsList as bs

/-- Decide whether the first character list occurs contiguously inside the
second; this mirrors the Python substring operator on strings. -/
def occursIn (needle : List Char) : List Char → Bool
  | [] => needle.isEmpty
  | b :: bs => leadsList needle (b :: bs) || occursIn needle bs

/-- Substring test on strings (Python infix in on str). -/
def containsSub (needle hay : String) : Bool := occursIn needle.toList hay.toList

/-- Character class of the tokenizer regex: lowercase ASCII letter or digit. -/
def isTokChar (c : Char) : Bool :=
  (decide ('a' ≤ c) && decide (c ≤ 'z')) || (decide ('0' ≤ c) && decide (c ≤ '9'))

/-- Lowercase ASCII letter, the class allowed after an apostrophe. -/
def isLowAlpha (c : Char) : Bool := decide ('a' ≤ c) && decide (c ≤ 'z')

/-- ASCII apostrophe character. -/
def apos : Char := Char.ofNat 39

theorem length_dropWhile_le (p : Char → Bool) (l : List Char) :
    (List.dropWhile p l).length ≤ l.length := by
  induction l with
  | nil => simp [List.dropWhile]
  | cons a t ih =>
    by_cases h : p a
    · simp only [List.dropWhile_cons, h, if_true]
      exact Nat.le_succ_of_le ih
    · simp [List.dropWhile_cons, h]

theorem length_lt_of_dropWhile_cons {p : Char → Bool} {l r : List Char} {q : Char}
    (h : List.dropWhile p l = q :: r) : r.length < l.length := by
  have h2 := length_dropWhile_le p l
  rw [h] at h2
  simp only [List.length_cons] at h2
  omega

/-- Scanner for the tokenizer regex of the engine: maximal runs of
lowercase alphanumerics, optionally extended by an apostrophe followed by
at least one lowercase letter, matched left to right without overlap. -/
def tokenizeChars : List Char → List (List Char)
  | [] => []
  | c :: rest =>
    if hc : isTokChar c then
      match h1 : List.dropWhile isTokChar (c :: rest) with
      | [] => [List.takeWhile isTokChar (c :: rest)]
      | q :: rest2 =>
        if q == apos && !(rest2.takeWhile isLowAlpha).isEmpty then
          (List.takeWhile isTokChar (c :: rest) ++ apos :: rest2.takeWhile isLowAlpha)
            :: tokenizeChars (rest2.dropWhile isLowAlpha)
        else
          List.takeWhile isTokChar (c :: rest) :: tokenizeChars (q :: rest2)
    else tokenizeChars rest
termination_by l => l.length
decreasing_by
  · rw [List.dropWhile_cons, if_pos hc] at h1
    have h2 := length_lt_of_dropWhile_cons h1
    have h3 := length_dropWhile_le isLowAlpha rest2
    simp only [List.length_cons]
    omega
  · rw [List.dropWhile_cons, if_pos hc] at h1
    have h2 := length_lt_of_dropWhile_cons h1
    simp only [List.length_cons]
    omega
  · simp

/-- Source _tokenize: extract lowercase tokens from text. -/
def tokenize (text : String) : List String :=
  (tokenizeChars (lowerStr text).toList).map String.mk

/-- Source CATEGORY_INDICATORS table (dict insertion order preserved). -/
def CATEGORY_INDICATORS : List (String × List String) := [
  ("TAX", ["tax", "revenue", "turnover", "vat", "income tax", "withholding"]),
  ("ENERGY", ["fuel", "diesel", "petrol", "electricity", "power", "solar", "energy", "generator"]),
  ("FINANCE", ["loan", "bank", "interest", "financing", "credit", "lending", "inflation",
    "exchange rate", "forex", "kwacha"]),
  ("LOGISTICS", ["transport", "road", "delivery", "logistics", "fleet", "shipping",
    "cold chain", "warehouse"]),
  ("MINING", ["mining", "mine", "copper", "cobalt", "mineral", "smelting", "ore", "drill"]),
  ("AGRICULTURE", ["farm", "agriculture", "maize", "crop", "harvest", "fertilizer", "seed",
    "livestock", "land"]),
  ("LABOR", ["employee", "worker", "salary", "wage", "staff", "hire", "payroll", "labour",
    "labor", "napsa"]),
  ("IMPORT_EXPORT", ["import", "export", "customs", "tariff", "comesa", "trade", "shipping"]),
  ("DIGITAL", ["digital", "mobile", "app", "software", "internet", "telecom", "fintech",
    "data", "online", "e-commerce"]),
  ("REGISTRATION", ["register", "license", "permit", "pacra", "zema", "certification",
    "compliance"])]

/-- Source _detect_categories: a category is detected when any of its
indicator phrases occurs in the lowercased plan text (first match per
category suffices; membership is all that is ever used of the result). -/
def detectCategories (planText : String) : List String :=
  let planLower := lowerStr planText
  CATEGORY_INDICATORS.foldl
    (fun acc ci => if ci.2.any (fun ind => containsSub ind planLower) then acc ++ [ci.1] else acc)
    []

/-- Source RealityFact dataclass. -/
structure RealityFact where
  category : String
  fact : String
  source : String
  effective_date : String
  keywords : List String
deriving DecidableEq, Repr

/-- Source scoring weight: exact keyword match. -/
def EXACT_KEYWORD_WEIGHT : ℚ := 3
/-- Source scoring weight: fuzzy keyword match. -/
def FUZZY_KEYWORD_WEIGHT : ℚ := 3/2
/-- Source scoring weight: category boost. -/
def CATEGORY_BOOST_WEIGHT : ℚ := 2
/-- Source whole-text fuzzy similarity threshold. -/
def FUZZY_THRESHOLD : ℚ := 65/100
/-- Source default number of retrieved facts. -/
def TOP_K : Nat := 10

/-- Source _score_fact: score a fact's relevance to the plan, given the
similarity function `ratio` (difflib SequenceMatcher ratio in the source). -/
def scoreFact (ratio : String → String → ℚ) (fact : RealityFact)
    (planTokens : List String) (detectedCategories : List String) : ℚ :=
  let exactScore := fact.keywords.foldl
    (fun s keyword =>
      if planTokens.contains (lowerStr keyword) then s + EXACT_KEYWORD_WEIGHT else s) 0
  let planTextJoined := String.intercalate " " planTokens
  let fuzzyScore := fact.keywords.foldl
    (fun s keyword =>
      if planTokens.contains (lowerStr keyword) then s
      else if FUZZY_THRESHOLD ≤ ratio (lowerStr keyword) planTextJoined then
        s + FUZZY_KEYWORD_WEIGHT
      else if planTokens.any (fun t =>
          decide (4 ≤ t.length) && decide (4 ≤ (lowerStr keyword).length) &&
          decide ((3 : ℚ)/4 ≤ ratio (lowerStr keyword) t)) then
        s + FUZZY_KEYWORD_WEIGHT * (1/2)
      else s) 0
  let categoryBoost :=
    if detectedCategories.contains fact.category then CATEGORY_BOOST_WEIGHT else 0
  exactScore + fuzzyScore + categoryBoost

/-- Stable insertion of an element into a descending-sorted list by key:
the new element goes after every earlier element of at least its key. -/
def insertDesc {α : Type} (key : α → ℚ) (x : α) : List α → List α
  | [] => [x]
  | y :: ys => if key y < key x then x :: y :: ys else y :: insertDesc key x ys

/-- Stable sort by key descending (the contract of the Python list sort
with reverse order: descending keys, equal keys keep input order). -/
def sortDescStable {α : Type} (key : α → ℚ) (l : List α) : List α :=
  l.foldl (fun acc x => insertDesc key x acc) []

/-- Scored corpus of retrieve_relevant_facts before ranking: every fact
paired with its score, keeping only strictly positive scores, in corpus
order. -/
def scoredFacts (ratio : String → String → ℚ) (db : List RealityFact)
    (planText : String) : List (RealityFact × ℚ) :=
  (db.map (fun f =>
    (f, scoreFact ratio f (tokenize planText) (detectCategories planText)))).filter
    (fun p => decide (0 < p.2))

/-- Source retrieve_relevant_facts: score the corpus, keep strictly
positive scores, sort by score descending (stable), truncate to top K. -/
def retrieveRelevantFacts (ratio : String → String → ℚ) (db : List RealityFact)
    (planText : String) (topK : Nat) : List (RealityFact × ℚ) :=
  (sortDescStable (fun p => p.2) (scoredFacts ratio db planText)).take topK

/-- Round a rational to the nearest integer, ties to even, matching the
Python fixed-point formatting of the dyadic scores. -/
def halfEvenRound (x : ℚ) : ℤ :=
  let f := ⌊x⌋
  if x - f < 1/2 then f
  else if (1 : ℚ)/2 < x - f then f + 1
  else if f % 2 = 0 then f else f + 1

/-- Format a score with one decimal place (Python format .1f on the exact
dyadic score values used by the engine). -/
def formatQ1 (q : ℚ) : String :=
  let n := halfEvenRound (10 * q)
  if n < 0 then "-" ++ toString ((-n) / 10) ++ "." ++ toString ((-n) % 10)
  else toString (n / 10) ++ "." ++ toString (n % 10)

/-- Sentinel context emitted by fetch_reality when nothing matched. -/
def noMatchContext : String :=
  "No specific Zambian regulatory or economic data matched this business plan. General business regulations still apply."

/-- Sentinel citation emitted by fetch_reality when nothing matched. -/
def noMatchCitation : String := "No specific matches found"

/-- Source fetch_reality: the retrieval output delivered to the
orchestrator, as the pair (reality_context, reality_citations). -/
def fetchReality (ratio : String → String → ℚ) (db : List RealityFact)
    (plan : String) : String × List String :=
  let results := retrieveRelevantFacts ratio db plan TOP_K
  if results.isEmpty then (noMatchContext, [noMatchCitation])
  else
    let contextParts := results.enum.map (fun p =>
      "[" ++ toString (p.1 + 1) ++ "] [" ++ p.2.1.category ++ "] " ++ p.2.1.fact ++
      " (Source: " ++ p.2.1.source ++ ", Effective: " ++ p.2.1.effective_date ++
      ", Relevance: " ++ formatQ1 p.2.2 ++ ")")
    let citations := results.enum.map (fun p =>
      "[" ++ toString (p.1 + 1) ++ "] " ++ p.2.1.source ++ " (" ++ p.2.1.effective_date ++ ")")
    (String.intercalate "\n\n" contextParts, citations)

/-- Per-keyword score contribution as the specification document words it:
+3.0 on an exact token match, else +1.5 on whole-text similarity at least
0.65, else +0.75 when some token of length at least 4 matches the keyword
(also length at least 4) with similarity at least 0.75, else 0. -/
def keywordScoreSpec (ratio : String → String → ℚ) (planTokens : List String)
    (planTextJoined : String) (keyword : String) : ℚ :=
  if planTokens.contains (lowerStr keyword) then 3
  else if (65 : ℚ)/100 ≤ ratio (lowerStr keyword) planTextJoined then 3/2
  else if planTokens.any (fun t =>
      decide (4 ≤ t.length) && decide (4 ≤ (lowerStr keyword).length) &&
      decide ((3 : ℚ)/4 ≤ ratio (lowerStr keyword) t)) then 3/4
  else 0

/-- Fact score as the specification document words it: the sum of the
per-keyword contributions plus a flat +2.0 when the fact category is among
the detected categories, applied once per fact. -/
def scoreFactSpec (ratio : String → String → ℚ) (fact : RealityFact)
    (planTokens : List String) (detectedCategories : List String) : ℚ :=
  (fact.keywords.map
    (keywordScoreSpec ratio planTokens (String.intercalate " " planTokens))).sum +
  (if detectedCategories.contains fact.category then 2 else 0)

/-! Debate state machine: state schema, agent nodes, and the mock graph loop. -/

/-- Source CritiqueSeverity enum. -/
inductive Severity where
  | FATAL
  | MAJOR
  | MINOR
  | NONE
deriving DecidableEq, Repr

/-- Source PlanStatus enum. -/
inductive PlanStatus where
  | DRAFT
  | UNDER_REVIEW
  | BROKEN
  | VALIDATED
  | NEEDS_REVISION
deriving DecidableEq, Repr

/-- Verdict options the judge verdict regex can match. -/
inductive Verdict where
  | VALIDATED
  | NEEDS_REVISION
  | BROKEN
deriving DecidableEq, Repr

/-- One critique entry as stored in a critique round. -/
structure Critique where
  fracture : String
  reality : String
  citation : String
  verdict : Severity
  impact : String
deriving DecidableEq, Repr

/-- One round dict appended to critique_history. -/
structure CritiqueRound where
  round : Nat
  critiques : List Critique
deriving DecidableEq, Repr

/-- One defense entry as stored in a defense round. -/
structure Defense where
  response_to : String
  defense : String
  revision : String
  mitigation : String
deriving DecidableEq, Repr

/-- One round dict appended to defense_history. -/
structure DefenseRound where
  round : Nat
  defenses : List Defense
deriving DecidableEq, Repr

/-- Source AgentState TypedDict; every key is present (stress_test_plan
initialises all of them, and the mock invoke setdefaults the rest). -/
structure AgentState where
  business_plan : String
  assumption_tree : List String
  reality_context : String
  reality_citations : List String
  critique_history : List CritiqueRound
  defense_history : List DefenseRound
  plan_status : PlanStatus
  critique_severity : Severity
  revision_count : Nat
  max_revisions : Nat
  human_override : String
  awaiting_human : Bool
deriving DecidableEq, Repr

/-- Outcome of one attempt of a primary (oracle-backed) strategy, at the
boundary where the source leaves its try block: a credential-absence
signal (NoAPIKeyError), any other raised error, or a parsed value. -/
inductive LLMOutcome (α : Type) where
  | noKey
  | raised
  | ok (val : α)
deriving DecidableEq, Repr

/-- One structured block parsed from the adversary oracle reply, with the
raw field texts (missing fields already defaulted by the parser). -/
structure CritBlock where
  fracture : String
  reality : String
  citation : String
  verdict : String
  impact : String
deriving DecidableEq, Repr

/-- Whitespace class of Python str.strip (ASCII whitespace characters). -/
def isPySpace (c : Char) : Bool :=
  c = ' ' || c = '\t' || c = '\n' || c = '\r' || c = Char.ofNat 11 || c = Char.ofNat 12

/-- Python str.strip: drop leading and trailing whitespace. -/
def pyStrip (s : String) : String :=
  String.mk (((s.toList.dropWhile isPySpace).reverse.dropWhile isPySpace).reverse)

/-- Severity classification of a block verdict text in adversary_critique:
uppercase and strip the text, then look for FATAL, else MAJOR, else MINOR. -/
def severityFromVerdictStr (vs : String) : Severity :=
  let v := pyStrip (upperStr vs)
  if containsSub "FATAL" v then Severity.FATAL
  else if containsSub "MAJOR" v then Severity.MAJOR
  else Severity.MINOR

/-- Source max-severity accumulator body shared by the adversary primary
and fallback paths (the if/elif chain run after each critique). -/
def bumpSeverity (mx sev : Severity) : Severity :=
  if sev = Severity.FATAL then Severity.FATAL
  else if sev = Severity.MAJOR ∧ mx ≠ Severity.FATAL then Severity.MAJOR
  else if sev = Severity.MINOR ∧ mx = Severity.NONE then Severity.MINOR
  else mx

/-- Update dict returned by adversary_critique. -/
structure CritiqueUpdate where
  critique_history : List CritiqueRound
  critique_severity : Severity
  plan_status : PlanStatus
deriving DecidableEq, Repr

/-- Update dict returned by proponent_revise. -/
structure DefenseUpdate where
  defense_history : List DefenseRound
deriving DecidableEq, Repr

/-- Update dict returned by extract_assumptions. -/
structure ExtractUpdate where
  assumption_tree : List String
  plan_status : PlanStatus
deriving DecidableEq, Repr

/-- Update dict returned by human_judge; optional keys are absent in some
branches of the source and leave the state unchanged on merge. -/
structure JudgeResult where
  plan_status : PlanStatus
  awaiting_human : Bool
  human_override : Option String
  revision_count : Option Nat
deriving DecidableEq, Repr

/-- Source _adversary_critique_rule_based, per assumption: the keyword
chain over the lowercased assumption and lowercased reality context. -/
def advFallbackCritique (realityLower : String) (assumption : String) : Critique :=
  let al := lowerStr assumption
  if containsSub "fuel" al && containsSub "k25" realityLower then
    { fracture := assumption
      reality := "Diesel is K25.11/litre with 5-8% monthly volatility. Fixed fuel cost assumptions are unreliable."
      citation := "ERB Q1 2025 Price Schedule"
      verdict := Severity.MAJOR
      impact := "Fuel cost variance could erode margins by 5-15% annually." }
  else if containsSub "tax" al && containsSub "turnover" realityLower then
    { fracture := assumption
      reality := "Turnover Tax is 5% on gross revenue with NO deductions. If revenue exceeds ZMW 5M, CIT at 30% applies."
      citation := "ZRA 2025 Tax Guide"
      verdict := Severity.MAJOR
      impact := "Tax miscalculation could increase tax burden by 200-500%." }
  else if containsSub "transport" al || containsSub "logistics" al || containsSub "road" al then
    { fracture := assumption
      reality := "40-60% of rural roads are impassable during rainy season (Nov-Apr). La Niña flooding confirmed for 2025."
      citation := "Road Development Agency 2025"
      verdict := Severity.FATAL
      impact := "Complete supply chain disruption for 2-6 weeks per flood event." }
  else if containsSub "financ" al || containsSub "loan" al || containsSub "bank" al then
    { fracture := assumption
      reality := "SME lending rates are 24-32%, not typical plan assumptions of 10-15%. Collateral requirement is 150-200% of loan value."
      citation := "Bankers Association Survey 2025"
      verdict := Severity.MAJOR
      impact := "Debt servicing costs likely 2-3x higher than projected." }
  else if containsSub "margin" al || containsSub "profit" al then
    { fracture := assumption
      reality := "With inflation at 11%, fuel volatility of 5-8%, and lending rates of 24-32%, single-digit margins are extremely fragile."
      citation := "ZamStats CPI Report + BoZ Policy Rate 2025"
      verdict := Severity.MAJOR
      impact := "Projected margins may turn negative within 6 months under stress conditions." }
  else
    { fracture := assumption
      reality := "This assumption requires further verification against current Zambian regulatory and economic conditions."
      citation := "General regulatory framework"
      verdict := Severity.MINOR
      impact := "Potential unquantified risk to business operations." }

/-- Maximum severity of a critique list under the source accumulator. -/
def maxSeverityOf (critiques : List Critique) : Severity :=
  critiques.foldl (fun mx c => bumpSeverity mx c.verdict) Severity.NONE

/-- Critique update assembled from a critique list, shared by the source
primary and fallback return statements of adversary_critique. -/
def critiqueUpdateOf (rc : Nat) (critiques : List Critique) : CritiqueUpdate :=
  { critique_history := [{ round := rc + 1, critiques := critiques }]
    critique_severity := maxSeverityOf critiques
    plan_status :=
      if maxSeverityOf critiques = Severity.FATAL then PlanStatus.BROKEN
      else PlanStatus.UNDER_REVIEW }

/-- Source _adversary_critique_rule_based over the whole assumption tree. -/
def advFallback (st : AgentState) : CritiqueUpdate :=
  let realityLower := lowerStr st.reality_context
  critiqueUpdateOf st.revision_count (st.assumption_tree.map (advFallbackCritique realityLower))

/-- Source adversary_critique node: primary path on parsed blocks when at
least one block was parsed, else the rule-based fallback; the boolean
records whether a recoverable warning was surfaced. -/
def adversaryCritique (o : LLMOutcome (List CritBlock)) (st : AgentState) :
    CritiqueUpdate × Bool :=
  match o with
  | LLMOutcome.ok blocks =>
    let critiques := blocks.map (fun b =>
      { fracture := b.fracture
        reality := b.reality
        citation := b.citation
        verdict := severityFromVerdictStr b.verdict
        impact := b.impact })
    if critiques.isEmpty then (advFallback st, false)
    else (critiqueUpdateOf st.revision_count critiques, false)
  | LLMOutcome.noKey => (advFallback st, false)
  | LLMOutcome.raised => (advFallback st, true)

/-- Source _proponent_revise_rule_based: one canned defense per critique
of the latest round, keyed by the critique verdict. -/
def propFallback (st : AgentState) : DefenseUpdate :=
  let latest := st.critique_history.getLastD { round := 0, critiques := [] }
  let defenses := latest.critiques.map (fun c =>
    if c.verdict = Severity.FATAL then
      { response_to := c.fracture
        defense := "ACCEPTED — this is a critical flaw requiring fundamental plan restructuring."
        revision := "Conduct detailed feasibility study addressing this specific risk before proceeding."
        mitigation := "Engage local consultants with sector-specific expertise to redesign this component." }
    else if c.verdict = Severity.MAJOR then
      { response_to := c.fracture
        defense := "Partially accepted — the critique identifies a real risk but the impact may be mitigable."
        revision := "Revise financial model to incorporate realistic cost assumptions from the cited sources."
        mitigation := "Build contingency buffer of 20-30% on affected cost lines and develop alternative supply chains." }
    else
      { response_to := c.fracture
        defense := "Noted — this is a minor optimization opportunity rather than a fundamental flaw."
        revision := "No major revision needed; will incorporate into detailed planning phase."
        mitigation := "Monitor this factor and adjust operations as needed." })
  { defense_history := [{ round := st.revision_count + 1, defenses := defenses }] }

/-- Source proponent_revise node: primary path on parsed defense blocks
when at least one was parsed, else the rule-based fallback. -/
def proponentRevise (o : LLMOutcome (List Defense)) (st : AgentState) :
    DefenseUpdate × Bool :=
  match o with
  | LLMOutcome.ok ds =>
    if ds.isEmpty then (propFallback st, false)
    else ({ defense_history := [{ round := st.revision_count + 1, defenses := ds }] }, false)
  | LLMOutcome.noKey => (propFallback st, false)
  | LLMOutcome.raised => (propFallback st, true)

/-- Source _extract_assumptions_rule_based: the fixed keyword chain over
the lowercased plan, with two default assumptions when nothing matched. -/
def extractFallback (plan : String) : List String :=
  let pl := lowerStr plan
  let pick := fun (ws : List String) (a : String) (acc : List String) =>
    if ws.any (fun w => containsSub w pl) then acc ++ [a] else acc
  let acc : List String := []
  let acc := pick ["revenue", "income", "turnover", "sales", "zmw"]
    "[Financial] ASSUMPTION: Revenue projections are achievable given current market conditions and tax obligations." acc
  let acc := pick ["loan", "bank", "financing", "credit", "borrow"]
    "[Financial] ASSUMPTION: Bank financing is available at the assumed interest rate and terms." acc
  let acc := pick ["diesel", "fuel", "petrol", "energy"]
    "[Operational] ASSUMPTION: Fuel costs will remain stable at the assumed price level." acc
  let acc := pick ["transport", "delivery", "logistics", "fleet", "road"]
    "[Operational] ASSUMPTION: Transport routes will remain passable year-round without significant disruption." acc
  let acc := pick ["tax", "vat", "turnover tax"]
    "[Regulatory] ASSUMPTION: The business qualifies for the assumed tax regime and rates." acc
  let acc := pick ["farm", "agriculture", "crop", "harvest", "maize"]
    "[Market] ASSUMPTION: Agricultural commodity prices will meet the projected levels." acc
  let acc := pick ["mine", "mining", "copper", "mineral"]
    "[Regulatory] ASSUMPTION: Mining licenses and permits can be obtained within the projected timeline." acc
  let acc := pick ["employee", "staff", "worker", "hire", "salary"]
    "[Operational] ASSUMPTION: Labor costs align with the assumed wage levels and statutory contributions are accounted for." acc
  let acc := pick ["import", "export", "customs"]
    "[Regulatory] ASSUMPTION: Import/export duties and fees are correctly estimated in the financial model." acc
  let acc := pick ["app", "digital", "online", "mobile", "software"]
    "[Regulatory] ASSUMPTION: All digital/telecom licensing and data protection requirements are met." acc
  let acc := pick ["property", "land", "building", "premises"]
    "[Financial] ASSUMPTION: Property costs (rent/purchase/transfer) match the assumed levels." acc
  let acc := pick ["western", "northern", "rural", "province"]
    "[Environmental] ASSUMPTION: Geographic and seasonal conditions will not materially impact operations." acc
  let acc := pick ["margin", "profit", "net"]
    "[Financial] ASSUMPTION: Projected profit margins are achievable after accounting for all costs and regulatory burdens." acc
  if acc.isEmpty then
    ["[Financial] ASSUMPTION: The business plan's financial projections are realistic given Zambian market conditions.",
     "[Regulatory] ASSUMPTION: All necessary licenses, permits, and regulatory requirements have been identified."]
  else acc

/-- Source extract_assumptions node: primary path on the matched
assumption lines when at least one matched, else the fallback; both set
plan_status to UNDER_REVIEW. -/
def extractAssumptions (o : LLMOutcome (List String)) (st : AgentState) :
    ExtractUpdate × Bool :=
  match o with
  | LLMOutcome.ok lines =>
    if lines.isEmpty then
      ({ assumption_tree := extractFallback st.business_plan
         plan_status := PlanStatus.UNDER_REVIEW }, false)
    else ({ assumption_tree := lines, plan_status := PlanStatus.UNDER_REVIEW }, false)
  | LLMOutcome.noKey =>
    ({ assumption_tree := extractFallback st.business_plan
       plan_status := PlanStatus.UNDER_REVIEW }, false)
  | LLMOutcome.raised =>
    ({ assumption_tree := extractFallback st.business_plan
       plan_status := PlanStatus.UNDER_REVIEW }, true)

/-- Cap-exceeded note of the judge safety brake for the non-FATAL case. -/
def capNote (maxRevisions : Nat) : String :=
  "Max revisions (" ++ toString maxRevisions ++ ") reached. Plan needs external review."

/-- Cap-exceeded note of the judge safety brake for the FATAL case. -/
def capNoteFatal (maxRevisions : Nat) : String :=
  "Max revisions (" ++ toString maxRevisions ++ ") reached with FATAL issues unresolved."

/-- Fatal-escalation note of the judge. -/
def fatalNote : String :=
  "FATAL critique detected — human review required before proceeding."

/-- Source rule-based judgment at the bottom of human_judge. -/
def judgeFallback (sev : Severity) (rc : Nat) : JudgeResult :=
  if sev = Severity.MINOR then
    { plan_status := PlanStatus.VALIDATED, awaiting_human := false
      human_override := none, revision_count := some rc }
  else
    { plan_status := PlanStatus.NEEDS_REVISION, awaiting_human := false
      human_override := none, revision_count := some (rc + 1) }

/-- Source human_judge node. The oracle outcome carries the verdict parsed
from the reply together with the raw reply text; a reply in which the
verdict regex found no match is modelled as ok none and falls through to
the rule-based judgment without a warning, exactly as in the source. -/
def humanJudge (o : LLMOutcome (Option (Verdict × String))) (st : AgentState) :
    JudgeResult × Bool :=
  let sev := st.critique_severity
  let rc := st.revision_count
  let mx := st.max_revisions
  if mx ≤ rc then
    if sev = Severity.FATAL then
      ({ plan_status := PlanStatus.BROKEN, awaiting_human := true
         human_override := some (capNoteFatal mx), revision_count := none }, false)
    else
      ({ plan_status := PlanStatus.BROKEN, awaiting_human := true
         human_override := some (capNote mx), revision_count := some rc }, false)
  else if sev = Severity.FATAL then
    ({ plan_status := PlanStatus.BROKEN, awaiting_human := true
       human_override := some fatalNote, revision_count := some rc }, false)
  else
    match o with
    | LLMOutcome.noKey => (judgeFallback sev rc, false)
    | LLMOutcome.raised => (judgeFallback sev rc, true)
    | LLMOutcome.ok none => (judgeFallback sev rc, false)
    | LLMOutcome.ok (some (v, response)) =>
      match v with
      | Verdict.VALIDATED =>
        ({ plan_status := PlanStatus.VALIDATED, awaiting_human := false
           human_override := none, revision_count := some rc }, false)
      | Verdict.BROKEN =>
        ({ plan_status := PlanStatus.BROKEN, awaiting_human := true
           human_override := some response, revision_count := some rc }, false)
      | Verdict.NEEDS_REVISION =>
        ({ plan_status := PlanStatus.NEEDS_REVISION, awaiting_human := false
           human_override := none, revision_count := some (rc + 1) }, false)

/-- Merge a judge update dict into the state (Python state.update). -/
def applyJudgeResult (st : AgentState) (r : JudgeResult) : AgentState :=
  { st with
    plan_status := r.plan_status
    awaiting_human := r.awaiting_human
    human_override := r.human_override.getD st.human_override
    revision_count := r.revision_count.getD st.revision_count }

/-- Source should_continue: route after the adversary critique. -/
def should_continue (st : AgentState) : String :=
  if st.critique_severity = Severity.FATAL then "end"
  else if st.critique_severity = Severity.MAJOR then "proponent_revise"
  else "human_judge"

/-- Source route_after_judge: route after the judge decision. -/
def route_after_judge (st : AgentState) : String :=
  if st.plan_status = PlanStatus.VALIDATED ∨ st.plan_status = PlanStatus.BROKEN then "end"
  else "adversary_critique"

/-- Stream of oracle outcomes for a run: the extraction call and, per
debate iteration, one adversary, one proponent, and one judge attempt. -/
structure Env where
  extract : LLMOutcome (List String)
  adv : Nat → LLMOutcome (List CritBlock)
  prop : Nat → LLMOutcome (List Defense)
  judge : Nat → LLMOutcome (Option (Verdict × String))

/-- Adversary critique step of the mock loop: append the new round and
overwrite severity and status from the update dict. -/
def stepCritique (env : Env) (k : Nat) (st : AgentState) : AgentState :=
  let cu := (adversaryCritique (env.adv k) st).1
  { st with
    critique_history := st.critique_history ++ cu.critique_history
    critique_severity := cu.critique_severity
    plan_status := cu.plan_status }

/-- Proponent step of the mock loop, taken only on the proponent route. -/
def stepDefense (env : Env) (k : Nat) (st : AgentState) (route : String) : AgentState :=
  if route = "proponent_revise" then
    { st with
      defense_history :=
        st.defense_history ++ ((proponentRevise (env.prop k) st).1).defense_history }
  else st

/-- Judge step of the mock loop. -/
def stepJudge (env : Env) (k : Nat) (st : AgentState) : AgentState :=
  applyJudgeResult st ((humanJudge (env.judge k) st).1)

/-- Debate loop body of MockAssumeBreakGraph.invoke: critique, route,
optionally defend, judge, route again; the fuel argument is the Python
range bound max_revisions + 1 and k counts iterations. -/
def debateLoop (env : Env) : Nat → Nat → AgentState → AgentState
  | 0, _, st => st
  | n + 1, k, st =>
    let st1 := stepCritique env k st
    if should_continue st1 = "end" then st1
    else
      let st2 := stepDefense env k st1 (should_continue st1)
      let st3 := stepJudge env k st2
      if route_after_judge st3 = "end" then st3
      else debateLoop env n (k + 1) st3

/-- Snapshots of the state after every update the loop applies, in order;
the run's final state is the last snapshot. -/
def debateLoopTrace (env : Env) : Nat → Nat → AgentState → List AgentState
  | 0, _, _ => []
  | n + 1, k, st =>
    let st1 := stepCritique env k st
    if should_continue st1 = "end" then [st1]
    else
      let st2 := stepDefense env k st1 (should_continue st1)
      let st3 := stepJudge env k st2
      if route_after_judge st3 = "end" then [st1, st2, st3]
      else st1 :: st2 :: st3 :: debateLoopTrace env n (k + 1) st3

/-- Extraction step of the mock graph (state.update of the node dict). -/
def stepExtract (env : Env) (st : AgentState) : AgentState :=
  let eu := (extractAssumptions env.extract st).1
  { st with assumption_tree := eu.assumption_tree, plan_status := eu.plan_status }

/-- Retrieval step of the mock graph (state.update of the node dict). -/
def stepRetrieve (ratio : String → String → ℚ) (db : List RealityFact)
    (st : AgentState) : AgentState :=
  let r := fetchReality ratio db st.business_plan
  { st with reality_context := r.1, reality_citations := r.2 }

/-- Source MockAssumeBreakGraph.invoke on a state with every key present
(the setdefault calls are then identities). -/
def mockInvoke (env : Env) (ratio : String → String → ℚ) (db : List RealityFact)
    (st : AgentState) : AgentState :=
  let st2 := stepRetrieve ratio db (stepExtract env st)
  debateLoop env (st2.max_revisions + 1) 0 st2

/-- Every state the mock run passes through, initial state included. -/
def mockInvokeTrace (env : Env) (ratio : String → String → ℚ) (db : List RealityFact)
    (st : AgentState) : List AgentState :=
  let st1 := stepExtract env st
  let st2 := stepRetrieve ratio db st1
  st :: st1 :: st2 :: debateLoopTrace env (st2.max_revisions + 1) 0 st2

/-- Source StressTestResult snapshot (raw_state carries the final state). -/
structure StressTestResult where
  plan_status : PlanStatus
  critique_severity : Severity
  assumptions : List String
  critiques : List CritiqueRound
  defenses : List DefenseRound
  reality_citations : List String
  revision_count : Nat
  raw_state : AgentState
deriving DecidableEq, Repr

/-- Initial state built by stress_test_plan. -/
def initialState (plan : String) (maxRevisions : Nat) : AgentState :=
  { business_plan := plan
    assumption_tree := []
    reality_context := ""
    reality_citations := []
    critique_history := []
    defense_history := []
    plan_status := PlanStatus.DRAFT
    critique_severity := Severity.NONE
    revision_count := 0
    max_revisions := maxRevisions
    human_override := ""
    awaiting_human := false }

/-- Source stress_test_plan run entry point, executing the mock graph
(the compiled graph wires the same nodes and routing functions, and any
graph failure falls back to this mock execution). -/
def stressTestPlan (env : Env) (ratio : String → String → ℚ) (db : List RealityFact)
    (plan : String) (maxRevisions : Nat) : StressTestResult :=
  let finalState := mockInvoke env ratio db (initialState plan maxRevisions)
  { plan_status := finalState.plan_status
    critique_severity := finalState.critique_severity
    assumptions := finalState.assumption_tree
    critiques := finalState.critique_history
    defenses := finalState.defense_history
    reality_citations := finalState.reality_citations
    revision_count := finalState.revision_count
    raw_state := finalState }

/-- Trace of the stress_test_plan run, from the initial state on. -/
def stressTestTrace (env : Env) (ratio : String → String → ℚ) (db : List RealityFact)
    (plan : String) (maxRevisions : Nat) : List AgentState :=
  mockInvokeTrace env ratio db (initialState plan maxRevisions)

/-! Helper lemmas about folds and the stable descending sort. -/

theorem foldl_add_form {α : Type} (body : ℚ → α → ℚ) (φ : α → ℚ)
    (hb : ∀ s k, body s k = s + φ k) (l : List α) (c : ℚ) :
    l.foldl body c = c + (l.map φ).sum := by
  induction l generalizing c with
  | nil => simp
  | cons a t ih => rw [List.foldl_cons, hb, ih, List.map_cons, List.sum_cons]; ring

theorem sum_map_add_distrib {α : Type} (f g : α → ℚ) (l : List α) :
    (l.map f).sum + (l.map g).sum = (l.map (fun x => f x + g x)).sum := by
  induction l with
  | nil => simp
  | cons a t ih => simp only [List.map_cons, List.sum_cons, ← ih]; ring

theorem sum_map_congr {α : Type} (f g : α → ℚ) (l : List α)
    (h : ∀ x, f x = g x) : (l.map f).sum = (l.map g).sum := by
  induction l with
  | nil => rfl
  | cons a t ih => simp only [List.map_cons, List.sum_cons, h, ih]

theorem mem_insertDesc {α : Type} (key : α → ℚ) (x z : α) (l : List α) :
    z ∈ insertDesc key x l → z = x ∨ z ∈ l := by
  induction l with
  | nil => intro h; simp only [insertDesc, List.mem_singleton] at h; exact Or.inl h
  | cons y ys ih =>
    intro h
    simp only [insertDesc] at h
    by_cases hk : key y < key x
    · rw [if_pos hk] at h
      rcases List.mem_cons.mp h with h1 | h1
      · exact Or.inl h1
      · exact Or.inr h1
    · rw [if_neg hk] at h
      rcases List.mem_cons.mp h with h1 | h1
      · exact Or.inr (h1 ▸ List.mem_cons_self y ys)
      · rcases ih h1 with h2 | h2
        · exact Or.inl h2
        · exact Or.inr (List.mem_cons_of_mem y h2)

theorem pairwise_insertDesc {α : Type} (key : α → ℚ) (x : α) (l : List α)
    (hl : l.Pairwise (fun a b => key b ≤ key a)) :
    (insertDesc key x l).Pairwise (fun a b => key b ≤ key a) := by
  induction l with
  | nil => simp [insertDesc]
  | cons y ys ih =>
    rcases List.pairwise_cons.mp hl with ⟨hy, hys⟩
    simp only [insertDesc]
    by_cases hk : key y < key x
    · rw [if_pos hk]
      refine List.pairwise_cons.mpr ⟨?_, hl⟩
      intro z hz
      rcases List.mem_cons.mp hz with h1 | h1
      · exact h1 ▸ le_of_lt hk
      · exact le_trans (hy z h1) (le_of_lt hk)
    · rw [if_neg hk]
      refine List.pairwise_cons.mpr ⟨?_, ih hys⟩
      intro z hz
      rcases mem_insertDesc key x z ys hz with h1 | h1
      · exact h1 ▸ le_of_not_lt hk
      · exact hy z h1

theorem filter_insertDesc {α : Type} (key : α → ℚ) (x : α) (q : ℚ) :
    ∀ l : List α, l.Pairwise (fun a b => key b ≤ key a) →
    (insertDesc key x l).filter (fun z => decide (key z = q)) =
      l.filter (fun z => decide (key z = q)) ++
        (if key x = q then [x] else []) := by
  intro l
  induction l with
  | nil =>
    intro _
    by_cases hx : key x = q
    · simp [insertDesc, List.filter, hx]
    · simp [insertDesc, List.filter, hx]
  | cons y ys ih =>
    intro hl
    rcases List.pairwise_cons.mp hl with ⟨hy, hys⟩
    simp only [insertDesc]
    by_cases hk : key y < key x
    · rw [if_pos hk]
      by_cases hx : key x = q
      · have hrest : (y :: ys).filter (fun z => decide (key z = q)) = [] := by
          rw [List.filter_eq_nil_iff]
          intro z hz
          have hzlt : key z < key x := by
            rcases List.mem_cons.mp hz with h1 | h1
            · exact h1 ▸ hk
            · exact lt_of_le_of_lt (hy z h1) hk
          simp only [decide_eq_true_eq]
          intro hzq
          rw [hzq, hx] at hzlt
          exact lt_irrefl q hzlt
        have h1 : (x :: y :: ys).filter (fun z => decide (key z = q)) =
            x :: (y :: ys).filter (fun z => decide (key z = q)) := by
          simp [List.filter_cons, hx]
        rw [h1, hrest, if_pos hx]
        simp
      · have h1 : (x :: y :: ys).filter (fun z => decide (key z = q)) =
            (y :: ys).filter (fun z => decide (key z = q)) := by
          simp [List.filter_cons, hx]
        rw [h1, if_neg hx, List.append_nil]
    · rw [if_neg hk]
      simp only [List.filter_cons]
      rw [ih hys]
      split_ifs <;> simp

theorem pairwise_sortAux {α : Type} (key : α → ℚ) :
    ∀ (l acc : List α), acc.Pairwise (fun a b => key b ≤ key a) →
    (l.foldl (fun acc x => insertDesc key x acc) acc).Pairwise (fun a b => key b ≤ key a) := by
  intro l
  induction l with
  | nil => intro acc h; exact h
  | cons x t ih =>
    intro acc h
    exact ih (insertDesc key x acc) (pairwise_insertDesc key x acc h)

theorem pairwise_sortDescStable {α : Type} (key : α → ℚ) (l : List α) :
    (sortDescStable key l).Pairwise (fun a b => key b ≤ key a) :=
  pairwise_sortAux key l [] List.Pairwise.nil

theorem filter_sortAux {α : Type} (key : α → ℚ) (q : ℚ) :
    ∀ (l acc : List α), acc.Pairwise (fun a b => key b ≤ key a) →
    (l.foldl (fun acc x => insertDesc key x acc) acc).filter (fun z => decide (key z = q)) =
      acc.filter (fun z => decide (key z = q)) ++ l.filter (fun z => decide (key z = q)) := by
  intro l
  induction l with
  | nil => intro acc _; simp
  | cons x t ih =>
    intro acc h
    rw [List.foldl_cons, ih (insertDesc key x acc) (pairwise_insertDesc key x acc h),
      filter_insertDesc key x q acc h, List.filter_cons, List.append_assoc]
    by_cases hx : key x = q
    · simp [hx]
    · simp [hx]

theorem filter_sortDescStable {α : Type} (key : α → ℚ) (q : ℚ) (l : List α) :
    (sortDescStable key l).filter (fun z => decide (key z = q)) =
      l.filter (fun z => decide (key z = q)) := by
  have h := filter_sortAux key q l [] List.Pairwise.nil
  simpa [sortDescStable] using h

theorem mem_sortAux {α : Type} (key : α → ℚ) (z : α) :
    ∀ (l acc : List α), z ∈ l.foldl (fun acc x => insertDesc key x acc) acc →
    z ∈ acc ∨ z ∈ l := by
  intro l
  induction l with
  | nil => intro acc h; exact Or.inl h
  | cons x t ih =>
    intro acc h
    rcases ih (insertDesc key x acc) h with h1 | h1
    · rcases mem_insertDesc key x z acc h1 with h2 | h2
      · exact Or.inr (h2 ▸ List.mem_cons_self x t)
      · exact Or.inl h2
    · exact Or.inr (List.mem_cons_of_mem x h1)

theorem mem_sortDescStable {α : Type} (key : α → ℚ) (z : α) (l : List α)
    (h : z ∈ sortDescStable key l) : z ∈ l := by
  rcases mem_sortAux key z l [] h with h1 | h1
  · exact absurd h1 (List.not_mem_nil z)
  · exact h1

theorem foldl_add_form_mem {α : Type} (body : ℚ → α → ℚ) (φ : α → ℚ) :
    ∀ (l : List α), (∀ s : ℚ, ∀ k ∈ l, body s k = s + φ k) → ∀ c : ℚ,
    l.foldl body c = c + (l.map φ).sum := by
  intro l
  induction l with
  | nil => intro _ c; simp
  | cons a t ih =>
    intro hb c
    rw [List.foldl_cons, hb c a (List.mem_cons_self a t),
      ih (fun s k hk => hb s k (List.mem_cons_of_mem a hk)) (c + φ a),
      List.map_cons, List.sum_cons]
    ring

theorem sum_map_zero {α : Type} (l : List α) :
    (l.map (fun _ => (0 : ℚ))).sum = 0 := by
  induction l with
  | nil => rfl
  | cons a t ih => simp [ih]

/-! Claim theorems: relevance retrieval engine. -/

/-- Claim C4: for every fact and every input, the retrieval score equals
the sum over the fact's keywords of +3.0 on an exact token match (at most
once per keyword), else +1.5 on whole-token-sequence similarity at least
0.65, else +0.75 when some input token of length at least 4 matches the
keyword (also of length at least 4) with similarity at least 0.75 (once
per keyword), plus a flat +2.0 when the fact's category is among the
detected categories, applied once per fact. -/
theorem score_fact_matches_spec_formula (ratio : String → String → ℚ)
    (fact : RealityFact) (planTokens : List String) (detected : List String) :
    scoreFact ratio fact planTokens detected =
      scoreFactSpec ratio fact planTokens detected := by
  simp only [scoreFact, scoreFactSpec]
  rw [foldl_add_form
      (fun s keyword =>
        if planTokens.contains (lowerStr keyword) then s + EXACT_KEYWORD_WEIGHT else s)
      (fun keyword =>
        if planTokens.contains (lowerStr keyword) then EXACT_KEYWORD_WEIGHT else 0)
      (by intro s k; dsimp only; split_ifs <;> ring)
      fact.keywords 0]
  rw [foldl_add_form
      (fun s keyword =>
        if planTokens.contains (lowerStr keyword) then s
        else if FUZZY_THRESHOLD ≤ ratio (lowerStr keyword) (String.intercalate " " planTokens)
          then s + FUZZY_KEYWORD_WEIGHT
        else if planTokens.any (fun t =>
            decide (4 ≤ t.length) && decide (4 ≤ (lowerStr keyword).length) &&
            decide ((3 : ℚ)/4 ≤ ratio (lowerStr keyword) t)) then
          s + FUZZY_KEYWORD_WEIGHT * (1/2)
        else s)
      (fun keyword =>
        if planTokens.contains (lowerStr keyword) then 0
        else if FUZZY_THRESHOLD ≤ ratio (lowerStr keyword) (String.intercalate " " planTokens)
          then FUZZY_KEYWORD_WEIGHT
        else if planTokens.any (fun t =>
            decide (4 ≤ t.length) && decide (4 ≤ (lowerStr keyword).length) &&
            decide ((3 : ℚ)/4 ≤ ratio (lowerStr keyword) t)) then
          FUZZY_KEYWORD_WEIGHT * (1/2)
        else 0)
      (by intro s k; dsimp only; split_ifs <;> ring)
      fact.keywords 0]
  rw [zero_add, zero_add, sum_map_add_distrib]
  have hpt : ∀ k : String,
      ((if planTokens.contains (lowerStr k) then EXACT_KEYWORD_WEIGHT else 0) +
        (if planTokens.contains (lowerStr k) then 0
         else if FUZZY_THRESHOLD ≤ ratio (lowerStr k) (String.intercalate " " planTokens)
           then FUZZY_KEYWORD_WEIGHT
         else if planTokens.any (fun t =>
             decide (4 ≤ t.length) && decide (4 ≤ (lowerStr k).length) &&
             decide ((3 : ℚ)/4 ≤ ratio (lowerStr k) t)) then
           FUZZY_KEYWORD_WEIGHT * (1/2)
         else 0)) =
      keywordScoreSpec ratio planTokens (String.intercalate " " planTokens) k := by
    intro k
    simp only [keywordScoreSpec, EXACT_KEYWORD_WEIGHT, FUZZY_KEYWORD_WEIGHT, FUZZY_THRESHOLD]
    split_ifs <;> norm_num
  rw [sum_map_congr _ _ fact.keywords hpt]
  congr 1

/-- Claim C7: retrieval keeps only strictly positive scores, ranks them
with a stable descending sort (ties in corpus order, characterised by the
same-score sublists being preserved verbatim), truncates to the top K
(default 10), and is a pure function, hence identical across runs. -/
theorem retrieval_stable_ranking (ratio : String → String → ℚ)
    (db : List RealityFact) (planText : String) (topK : Nat) :
    retrieveRelevantFacts ratio db planText topK =
      (sortDescStable (fun p => p.2) (scoredFacts ratio db planText)).take topK
    ∧ (sortDescStable (fun p => p.2) (scoredFacts ratio db planText)).Pairwise
        (fun a b => b.2 ≤ a.2)
    ∧ (∀ q : ℚ,
        (sortDescStable (fun p => p.2) (scoredFacts ratio db planText)).filter
            (fun z => decide (z.2 = q)) =
          (scoredFacts ratio db planText).filter (fun z => decide (z.2 = q)))
    ∧ (retrieveRelevantFacts ratio db planText topK).length ≤ topK
    ∧ (∀ p ∈ retrieveRelevantFacts ratio db planText topK, 0 < p.2)
    ∧ TOP_K = 10 := by
  refine ⟨rfl, pairwise_sortDescStable _ _, fun q => filter_sortDescStable _ q _, ?_, ?_, rfl⟩
  · exact List.length_take_le _ _
  · intro p hp
    have h1 : p ∈ sortDescStable (fun p => p.2) (scoredFacts ratio db planText) :=
      List.mem_of_mem_take hp
    have h2 := mem_sortDescStable _ p _ h1
    have h3 := List.of_mem_filter h2
    simpa using h3

/-- Claim C8: every fact scores 0 against empty input (under the recorded
behaviour of the similarity function on the empty joined text), so
retrieval over empty input returns the empty ranked list, and whenever
the ranked result is empty the retrieval output is the fixed sentinel
context with a single sentinel citation, never an empty citation list. -/
theorem empty_input_and_sentinel (ratio : String → String → ℚ)
    (db : List RealityFact)
    (hr : ∀ f ∈ db, ∀ kw ∈ f.keywords, ratio (lowerStr kw) "" < 65/100) :
    (∀ f ∈ db, scoreFact ratio f (tokenize "") (detectCategories "") = 0)
    ∧ retrieveRelevantFacts ratio db "" TOP_K = []
    ∧ (∀ plan : String, retrieveRelevantFacts ratio db plan TOP_K = [] →
        fetchReality ratio db plan = (noMatchContext, [noMatchCitation])) := by
  have htok : tokenize "" = [] := by
    have h2 : tokenize "" = (tokenizeChars []).map String.mk := rfl
    rw [h2]
    simp [tokenizeChars]
  have hdet : detectCategories "" = [] := rfl
  have hscore : ∀ f ∈ db, scoreFact ratio f (tokenize "") (detectCategories "") = 0 := by
    intro f hf
    rw [htok, hdet]
    simp only [scoreFact]
    rw [foldl_add_form_mem _ (fun _ => (0 : ℚ)) f.keywords (by intro s k _; simp) 0]
    rw [foldl_add_form_mem _ (fun _ => (0 : ℚ)) f.keywords ?_ 0]
    · simp [sum_map_zero]
    · intro s k hk
      have h1 : ¬ FUZZY_THRESHOLD ≤ ratio (lowerStr k) (String.intercalate " " []) := by
        simp only [FUZZY_THRESHOLD, String.intercalate]
        exact not_le.mpr (hr f hf k hk)
      simp [h1]
  refine ⟨hscore, ?_, ?_⟩
  · have hempty : scoredFacts ratio db "" = [] := by
      simp only [scoredFacts]
      rw [List.filter_eq_nil_iff]
      intro p hp
      rcases List.mem_map.mp hp with ⟨f, hf, hfp⟩
      have := hscore f hf
      simp only [decide_eq_true_eq]
      rw [← hfp]
      simp [this]
    simp [retrieveRelevantFacts, hempty, sortDescStable]
  · intro plan h
    simp [fetchReality, h]

/-- Witness for C7: the ranked output of a concrete retrieval is within
the requested bound. -/
theorem retrieval_ranking_witness :
    (retrieveRelevantFacts (fun _ _ => (0 : ℚ)) [] "x" 10).length ≤ 10 :=
  (retrieval_stable_ranking (fun _ _ => 0) [] "x" 10).2.2.2.1

/-- Witness for C8: a concrete one-fact corpus retrieves nothing on empty
input. -/
theorem empty_input_witness :
    retrieveRelevantFacts (fun _ _ => (0 : ℚ))
      [{ category := "TAX", fact := "f", source := "s", effective_date := "d",
         keywords := ["tax"] }] "" TOP_K = [] :=
  (empty_input_and_sentinel (fun _ _ => 0) _ (by intro f hf kw hkw; norm_num)).2.1

/-! Helper lemmas about the debate nodes and routing. -/

theorem adv_history_length (o : LLMOutcome (List CritBlock)) (st : AgentState) :
    ((adversaryCritique o st).1).critique_history.length = 1 := by
  rcases o with _ | _ | blocks <;>
    simp only [adversaryCritique, advFallback, critiqueUpdateOf] <;>
    first
      | rfl
      | (split_ifs <;> rfl)

theorem adv_status_eq (o : LLMOutcome (List CritBlock)) (st : AgentState) :
    ((adversaryCritique o st).1).plan_status =
      (if ((adversaryCritique o st).1).critique_severity = Severity.FATAL
        then PlanStatus.BROKEN else PlanStatus.UNDER_REVIEW) := by
  rcases o with _ | _ | blocks <;>
    simp only [adversaryCritique, advFallback, critiqueUpdateOf] <;>
    first
      | rfl
      | (split_ifs <;> rfl)

theorem prop_history_length (o : LLMOutcome (List Defense)) (st : AgentState) :
    ((proponentRevise o st).1).defense_history.length = 1 := by
  rcases o with _ | _ | ds <;>
    simp only [proponentRevise, propFallback] <;>
    first
      | rfl
      | (split_ifs <;> rfl)

theorem judge_awaiting_broken (o : LLMOutcome (Option (Verdict × String)))
    (st : AgentState) (h : ((humanJudge o st).1).awaiting_human = true) :
    ((humanJudge o st).1).plan_status = PlanStatus.BROKEN := by
  revert h
  simp only [humanJudge]
  split_ifs with h1 h2 h3
  · intro _; rfl
  · intro _; rfl
  · intro _; rfl
  · rcases o with _ | _ | v
    · simp only [judgeFallback]; split_ifs <;> simp
    · simp only [judgeFallback]; split_ifs <;> simp
    · rcases v with _ | ⟨v, resp⟩
      · simp only [judgeFallback]; split_ifs <;> simp
      · cases v <;> simp

theorem should_continue_end_iff (st : AgentState) :
    should_continue st = "end" ↔ st.critique_severity = Severity.FATAL := by
  rcases hsev : st.critique_severity <;> simp [should_continue, hsev]

theorem route_after_judge_end_iff (st : AgentState) :
    route_after_judge st = "end" ↔
      (st.plan_status = PlanStatus.VALIDATED ∨ st.plan_status = PlanStatus.BROKEN) := by
  rcases hps : st.plan_status <;> simp [route_after_judge, hps]

theorem stepCritique_fields (env : Env) (k : Nat) (st : AgentState) :
    (stepCritique env k st).revision_count = st.revision_count
    ∧ (stepCritique env k st).max_revisions = st.max_revisions
    ∧ (stepCritique env k st).awaiting_human = st.awaiting_human
    ∧ (stepCritique env k st).defense_history = st.defense_history := by
  exact ⟨rfl, rfl, rfl, rfl⟩

theorem stepDefense_fields (env : Env) (k : Nat) (st : AgentState) (route : String) :
    (stepDefense env k st route).revision_count = st.revision_count
    ∧ (stepDefense env k st route).max_revisions = st.max_revisions
    ∧ (stepDefense env k st route).awaiting_human = st.awaiting_human
    ∧ (stepDefense env k st route).plan_status = st.plan_status
    ∧ (stepDefense env k st route).critique_severity = st.critique_severity
    ∧ (stepDefense env k st route).critique_history = st.critique_history := by
  unfold stepDefense
  split_ifs <;> exact ⟨rfl, rfl, rfl, rfl, rfl, rfl⟩

theorem stepJudge_max (env : Env) (k : Nat) (st : AgentState) :
    (stepJudge env k st).max_revisions = st.max_revisions := rfl

theorem stepJudge_histories (env : Env) (k : Nat) (st : AgentState) :
    (stepJudge env k st).critique_history = st.critique_history
    ∧ (stepJudge env k st).defense_history = st.defense_history :=
  ⟨rfl, rfl⟩

theorem stepJudge_awaiting_broken (env : Env) (k : Nat) (st : AgentState)
    (h : (stepJudge env k st).awaiting_human = true) :
    (stepJudge env k st).plan_status = PlanStatus.BROKEN :=
  judge_awaiting_broken (env.judge k) st h

theorem stepJudge_cap (env : Env) (k : Nat) (st : AgentState)
    (h : st.max_revisions ≤ st.revision_count) :
    (stepJudge env k st).plan_status = PlanStatus.BROKEN
    ∧ (stepJudge env k st).awaiting_human = true
    ∧ (stepJudge env k st).revision_count = st.revision_count := by
  unfold stepJudge applyJudgeResult humanJudge
  rw [if_pos h]
  split_ifs <;> exact ⟨rfl, rfl, rfl⟩

theorem stepJudge_below (env : Env) (k : Nat) (st : AgentState)
    (h : st.revision_count < st.max_revisions) :
    ((stepJudge env k st).plan_status = PlanStatus.VALIDATED
      ∧ (stepJudge env k st).awaiting_human = false
      ∧ (stepJudge env k st).revision_count = st.revision_count)
    ∨ ((stepJudge env k st).plan_status = PlanStatus.BROKEN
      ∧ (stepJudge env k st).awaiting_human = true
      ∧ (stepJudge env k st).revision_count = st.revision_count)
    ∨ ((stepJudge env k st).plan_status = PlanStatus.NEEDS_REVISION
      ∧ (stepJudge env k st).awaiting_human = false
      ∧ (stepJudge env k st).revision_count = st.revision_count + 1) := by
  unfold stepJudge applyJudgeResult humanJudge
  rw [if_neg (not_le.mpr h)]
  split_ifs with h1
  · exact Or.inr (Or.inl ⟨rfl, rfl, rfl⟩)
  · rcases henv : env.judge k with _ | _ | v
    · simp only [judgeFallback]
      split_ifs
      · exact Or.inl ⟨rfl, rfl, rfl⟩
      · exact Or.inr (Or.inr ⟨rfl, rfl, rfl⟩)
    · simp only [judgeFallback]
      split_ifs
      · exact Or.inl ⟨rfl, rfl, rfl⟩
      · exact Or.inr (Or.inr ⟨rfl, rfl, rfl⟩)
    · rcases v with _ | ⟨v, resp⟩
      · simp only [judgeFallback]
        split_ifs
        · exact Or.inl ⟨rfl, rfl, rfl⟩
        · exact Or.inr (Or.inr ⟨rfl, rfl, rfl⟩)
      · cases v
        · exact Or.inl ⟨rfl, rfl, rfl⟩
        · exact Or.inr (Or.inr ⟨rfl, rfl, rfl⟩)
        · exact Or.inr (Or.inl ⟨rfl, rfl, rfl⟩)

theorem stepCritique_status_eq (env : Env) (k : Nat) (st : AgentState) :
    (stepCritique env k st).plan_status =
      (if (stepCritique env k st).critique_severity = Severity.FATAL
        then PlanStatus.BROKEN else PlanStatus.UNDER_REVIEW) :=
  adv_status_eq (env.adv k) st

/-- Core termination and cap invariant of the debate loop: with at least
one unit of fuel, fuel plus revision count covering the cap, and the
count within the cap, the loop ends in a terminal status, keeps the count
within the cap, and never touches the cap itself. -/
theorem debateLoop_terminal (env : Env) :
    ∀ (n : Nat) (k : Nat) (st : AgentState), 1 ≤ n →
    st.max_revisions + 1 ≤ st.revision_count + n →
    st.revision_count ≤ st.max_revisions →
    ((debateLoop env n k st).plan_status = PlanStatus.VALIDATED
      ∨ (debateLoop env n k st).plan_status = PlanStatus.BROKEN)
    ∧ (debateLoop env n k st).revision_count ≤ st.max_revisions
    ∧ (debateLoop env n k st).max_revisions = st.max_revisions := by
  intro n
  induction n with
  | zero => intro k st h1; exact absurd h1 (by omega)
  | succ m ih =>
    intro k st _ hfuel hrc
    simp only [debateLoop]
    set st1 := stepCritique env k st with hst1
    have h1rc : st1.revision_count = st.revision_count := (stepCritique_fields env k st).1
    have h1mx : st1.max_revisions = st.max_revisions := (stepCritique_fields env k st).2.1
    by_cases hend : should_continue st1 = "end"
    · rw [if_pos hend]
      have hsev := (should_continue_end_iff st1).mp hend
      have hbroken : st1.plan_status = PlanStatus.BROKEN := by
        rw [stepCritique_status_eq, if_pos hsev]
      exact ⟨Or.inr hbroken, by rw [h1rc]; exact hrc, h1mx⟩
    · rw [if_neg hend]
      set st2 := stepDefense env k st1 (should_continue st1) with hst2
      have h2rc : st2.revision_count = st.revision_count := by
        rw [(stepDefense_fields env k st1 (should_continue st1)).1, h1rc]
      have h2mx : st2.max_revisions = st.max_revisions := by
        rw [(stepDefense_fields env k st1 (should_continue st1)).2.1, h1mx]
      set st3 := stepJudge env k st2 with hst3
      have h3mx : st3.max_revisions = st.max_revisions := by
        rw [hst3, stepJudge_max, h2mx]
      by_cases hcap : st2.max_revisions ≤ st2.revision_count
      · obtain ⟨hb, _, hr⟩ := stepJudge_cap env k st2 hcap
        have hroute : route_after_judge st3 = "end" :=
          (route_after_judge_end_iff st3).mpr (Or.inr hb)
        rw [if_pos hroute]
        exact ⟨Or.inr hb, by rw [hr, h2rc]; exact hrc, h3mx⟩
      · push_neg at hcap
        rcases stepJudge_below env k st2 hcap with ⟨hv, _, hr⟩ | ⟨hb, _, hr⟩ | ⟨hn, _, hr⟩
        · have hroute : route_after_judge st3 = "end" :=
            (route_after_judge_end_iff st3).mpr (Or.inl hv)
          rw [if_pos hroute]
          exact ⟨Or.inl hv, by rw [hr, h2rc]; exact hrc, h3mx⟩
        · have hroute : route_after_judge st3 = "end" :=
            (route_after_judge_end_iff st3).mpr (Or.inr hb)
          rw [if_pos hroute]
          exact ⟨Or.inr hb, by rw [hr, h2rc]; exact hrc, h3mx⟩
        · have hroute : ¬ route_after_judge st3 = "end" := by
            rw [route_after_judge_end_iff, hn]
            simp
          rw [if_neg hroute]
          have hlt : st.revision_count < st.max_revisions := by
            rw [h2rc, h2mx] at hcap
            exact hcap
          have h3rc : st3.revision_count = st.revision_count + 1 := by
            rw [hr, h2rc]
          have happ := ih (k + 1) st3 (by omega)
            (by rw [h3rc, h3mx]; omega) (by rw [h3rc, h3mx]; omega)
          refine ⟨happ.1, ?_, ?_⟩
          · have := happ.2.1
            rw [h3mx] at this
            exact this
          · rw [happ.2.2, h3mx]

/-- Bound on the number of rounds the loop can append to either history:
at most one critique round and one defense round per unit of fuel. -/
theorem debateLoop_history_bound (env : Env) :
    ∀ (n : Nat) (k : Nat) (st : AgentState),
    (debateLoop env n k st).critique_history.length ≤ st.critique_history.length + n
    ∧ (debateLoop env n k st).defense_history.length ≤ st.defense_history.length + n := by
  intro n
  induction n with
  | zero => intro k st; simp only [debateLoop]; omega
  | succ m ih =>
    intro k st
    simp only [debateLoop]
    set st1 := stepCritique env k st with hst1
    have h1c : st1.critique_history.length = st.critique_history.length + 1 := by
      rw [hst1]
      simp only [stepCritique, List.length_append]
      rw [adv_history_length]
    have h1d : st1.defense_history = st.defense_history := (stepCritique_fields env k st).2.2.2
    by_cases hend : should_continue st1 = "end"
    · rw [if_pos hend]
      constructor
      · rw [h1c]; omega
      · rw [h1d]; omega
    · rw [if_neg hend]
      set st2 := stepDefense env k st1 (should_continue st1) with hst2
      have h2c : st2.critique_history = st1.critique_history :=
        (stepDefense_fields env k st1 (should_continue st1)).2.2.2.2.2
      have h2d : st2.defense_history.length ≤ st1.defense_history.length + 1 := by
        rw [hst2]
        unfold stepDefense
        split_ifs
        · simp only [List.length_append]
          rw [prop_history_length]
        · omega
      set st3 := stepJudge env k st2 with hst3
      have h3c : st3.critique_history = st2.critique_history :=
        (stepJudge_histories env k st2).1
      have h3d : st3.defense_history = st2.defense_history :=
        (stepJudge_histories env k st2).2
      by_cases hroute : route_after_judge st3 = "end"
      · rw [if_pos hroute]
        constructor
        · rw [h3c, h2c, h1c]; omega
        · rw [h3d]; rw [h1d] at h2d; omega
      · rw [if_neg hroute]
        have happ := ih (k + 1) st3
        constructor
        · have := happ.1
          rw [h3c, h2c, h1c] at this
          omega
        · have := happ.2
          rw [h3d] at this
          rw [h1d] at h2d
          omega

/-- Invariant of the loop trace: starting from a state not awaiting a
human, every recorded state that awaits a human has status BROKEN. -/
theorem debateLoopTrace_inv (env : Env) :
    ∀ (n : Nat) (k : Nat) (st : AgentState), st.awaiting_human = false →
    ∀ s ∈ debateLoopTrace env n k st,
      s.awaiting_human = true → s.plan_status = PlanStatus.BROKEN := by
  intro n
  induction n with
  | zero => intro k st _ s hs; exact absurd hs (List.not_mem_nil s)
  | succ m ih =>
    intro k st hst s hs
    simp only [debateLoopTrace] at hs
    set st1 := stepCritique env k st with hst1
    have h1a : st1.awaiting_human = false := by
      rw [(stepCritique_fields env k st).2.2.1, hst]
    by_cases hend : should_continue st1 = "end"
    · rw [if_pos hend] at hs
      have h : s = st1 := by simpa using hs
      intro ha
      rw [h] at ha
      rw [ha] at h1a
      exact absurd h1a (by simp)
    · rw [if_neg hend] at hs
      set st2 := stepDefense env k st1 (should_continue st1) with hst2
      have h2a : st2.awaiting_human = false := by
        rw [(stepDefense_fields env k st1 (should_continue st1)).2.2.1, h1a]
      set st3 := stepJudge env k st2 with hst3
      by_cases hroute : route_after_judge st3 = "end"
      · rw [if_pos hroute] at hs
        have hs' : s = st1 ∨ s = st2 ∨ s = st3 := by simpa using hs
        rcases hs' with h | h | h
        · intro ha; rw [h] at ha; rw [ha] at h1a; exact absurd h1a (by simp)
        · intro ha; rw [h] at ha; rw [ha] at h2a; exact absurd h2a (by simp)
        · intro ha
          rw [h]
          rw [h] at ha
          exact stepJudge_awaiting_broken env k st2 ha
      · rw [if_neg hroute] at hs
        have hs' : s = st1 ∨ s = st2 ∨ s = st3 ∨
            s ∈ debateLoopTrace env m (k + 1) st3 := by simpa using hs
        rcases hs' with h | h | h | h
        · intro ha; rw [h] at ha; rw [ha] at h1a; exact absurd h1a (by simp)
        · intro ha; rw [h] at ha; rw [ha] at h2a; exact absurd h2a (by simp)
        · intro ha
          rw [h]
          rw [h] at ha
          exact stepJudge_awaiting_broken env k st2 ha
        · have h3a : st3.awaiting_human = false := by
            by_cases hb : st3.awaiting_human = true
            · have := stepJudge_awaiting_broken env k st2 hb
              exact absurd ((route_after_judge_end_iff st3).mpr (Or.inr this)) hroute
            · simpa using hb
          exact ih (k + 1) st3 h3a s h

/-! Concrete oracle environments used by the scenario claims. -/

/-- Similarity function returning 0 everywhere, for runs whose corpus is
empty (retrieval never consults it there). -/
def ratioZero : String → String → ℚ := fun _ _ => 0

/-- Parsed critique block with verdict MAJOR. -/
def majorBlock : CritBlock :=
  { fracture := "f", reality := "r", citation := "c", verdict := "MAJOR", impact := "i" }

/-- Parsed critique block with verdict MINOR. -/
def minorBlock : CritBlock :=
  { fracture := "f", reality := "r", citation := "c", verdict := "MINOR", impact := "i" }

/-- Parsed critique block with verdict FATAL. -/
def fatalBlock : CritBlock :=
  { fracture := "f", reality := "r", citation := "c", verdict := "FATAL", impact := "i" }

/-- Oracle environment producing one MAJOR critique in every round, with
the judge falling back to the rule-based strategy. -/
def envTwoMajors : Env :=
  { extract := LLMOutcome.ok ["[Financial] ASSUMPTION: a"]
    adv := fun _ => LLMOutcome.ok [majorBlock]
    prop := fun _ => LLMOutcome.noKey
    judge := fun _ => LLMOutcome.noKey }

/-- Oracle environment producing a single MINOR-only critique round. -/
def envMinorOnly : Env := { envTwoMajors with adv := fun _ => LLMOutcome.ok [minorBlock] }

/-- Oracle environment producing a FATAL critique in the first round. -/
def envFatalBase : Env := { envTwoMajors with adv := fun _ => LLMOutcome.ok [fatalBlock] }

/-! Claim theorems: debate orchestration. -/

/-- Claim C1 (code evidence): in a run whose first critique round contains
a FATAL critique, the final plan status is BROKEN and the judge oracle is
never consulted (the result is identical for every judge oracle), but the
final awaiting_human flag is false: the FATAL route ends the run before
the only code that sets awaiting_human, contradicting the specified
invariant that a FATAL finding escalates to a human. -/
theorem fatal_run_skips_judge_and_human_flag :
    (∀ jo : Nat → LLMOutcome (Option (Verdict × String)),
      stressTestPlan { envFatalBase with judge := jo } ratioZero [] "" 3 =
        stressTestPlan envFatalBase ratioZero [] "" 3)
    ∧ (stressTestPlan envFatalBase ratioZero [] "" 3).plan_status = PlanStatus.BROKEN
    ∧ (∃ r ∈ (stressTestPlan envFatalBase ratioZero [] "" 3).critiques,
        ∃ c ∈ r.critiques, c.verdict = Severity.FATAL)
    ∧ (stressTestPlan envFatalBase ratioZero [] "" 3).raw_state.awaiting_human = false :=
  ⟨fun _ => rfl, rfl, by decide, rfl⟩

/-- Claim C2: for every oracle environment, similarity function, corpus,
document and revision cap, the run entry point returns a snapshot whose
status is VALIDATED or BROKEN and whose revision count stays within the
cap. -/
theorem stress_test_terminal_status (env : Env) (ratio : String → String → ℚ)
    (db : List RealityFact) (plan : String) (maxRev : Nat) :
    ((stressTestPlan env ratio db plan maxRev).plan_status = PlanStatus.VALIDATED
      ∨ (stressTestPlan env ratio db plan maxRev).plan_status = PlanStatus.BROKEN)
    ∧ (stressTestPlan env ratio db plan maxRev).revision_count ≤ maxRev := by
  have h := debateLoop_terminal env (maxRev + 1) 0
    (stepRetrieve ratio db (stepExtract env (initialState plan maxRev)))
    (by omega)
    (by show maxRev + 1 ≤ 0 + (maxRev + 1); omega)
    (by show (0 : Nat) ≤ maxRev; omega)
  exact ⟨h.1, h.2.1⟩

/-- Claim C3: whenever the judge runs with revision_count at or above
max_revisions and no FATAL severity, it returns BROKEN with
awaiting_human true and the cap-exceeded note, independently of the judge
oracle (which is therefore never consulted); and the MAJOR-MAJOR run with
cap 1 ends BROKEN with revision_count 1 and awaiting_human true, with no
state of the run ever VALIDATED. -/
theorem judge_cap_gate_and_cap_scenario :
    (∀ (o : LLMOutcome (Option (Verdict × String))) (st : AgentState),
      st.max_revisions ≤ st.revision_count →
      st.critique_severity ≠ Severity.FATAL →
      (humanJudge o st).1 =
        { plan_status := PlanStatus.BROKEN, awaiting_human := true,
          human_override := some (capNote st.max_revisions),
          revision_count := some st.revision_count }
      ∧ (humanJudge o st).2 = false)
    ∧ (stressTestPlan envTwoMajors ratioZero [] "" 1).plan_status = PlanStatus.BROKEN
    ∧ (stressTestPlan envTwoMajors ratioZero [] "" 1).revision_count = 1
    ∧ (stressTestPlan envTwoMajors ratioZero [] "" 1).raw_state.awaiting_human = true
    ∧ (∀ s ∈ stressTestTrace envTwoMajors ratioZero [] "" 1,
        s.plan_status ≠ PlanStatus.VALIDATED) := by
  refine ⟨?_, rfl, rfl, rfl, by decide⟩
  intro o st h hsev
  unfold humanJudge
  rw [if_pos h, if_neg hsev]
  exact ⟨rfl, rfl⟩

/-- Witness for the cap gate of C3 at a concrete state. -/
theorem judge_cap_gate_witness :
    (humanJudge LLMOutcome.noKey
        { initialState "" 2 with revision_count := 2, critique_severity := Severity.MAJOR }).1 =
      { plan_status := PlanStatus.BROKEN, awaiting_human := true,
        human_override := some (capNote 2), revision_count := some 2 } :=
  (judge_cap_gate_and_cap_scenario.1 LLMOutcome.noKey
    { initialState "" 2 with revision_count := 2, critique_severity := Severity.MAJOR }
    (by decide) (by decide)).1

/-- Claim C5: the fallback judge below the cap with non-FATAL severity and
no oracle verdict maps MINOR to VALIDATED (awaiting_human false, count
unchanged) and MAJOR or NONE to NEEDS_REVISION (awaiting_human false,
count incremented by one); a single MINOR-only round with the fallback
judge yields a VALIDATED run with awaiting_human false. -/
theorem judge_fallback_and_minor_scenario :
    (∀ (st : AgentState) (o : LLMOutcome (Option (Verdict × String))),
      st.revision_count < st.max_revisions →
      (o = LLMOutcome.noKey ∨ o = LLMOutcome.raised ∨ o = LLMOutcome.ok none) →
      ((st.critique_severity = Severity.MINOR →
        (humanJudge o st).1 =
          { plan_status := PlanStatus.VALIDATED, awaiting_human := false,
            human_override := none, revision_count := some st.revision_count })
      ∧ ((st.critique_severity = Severity.MAJOR ∨ st.critique_severity = Severity.NONE) →
        (humanJudge o st).1 =
          { plan_status := PlanStatus.NEEDS_REVISION, awaiting_human := false,
            human_override := none, revision_count := some (st.revision_count + 1) })))
    ∧ (stressTestPlan envMinorOnly ratioZero [] "" 3).plan_status = PlanStatus.VALIDATED
    ∧ (stressTestPlan envMinorOnly ratioZero [] "" 3).raw_state.awaiting_human = false := by
  refine ⟨?_, rfl, rfl⟩
  intro st o hlt ho
  constructor
  · intro hmin
    have hnf : st.critique_severity ≠ Severity.FATAL := by rw [hmin]; simp
    unfold humanJudge
    rw [if_neg (not_le.mpr hlt), if_neg hnf]
    rcases ho with rfl | rfl | rfl <;>
      (show judgeFallback st.critique_severity st.revision_count = _
       unfold judgeFallback
       rw [if_pos hmin])
  · intro hmaj
    have hnf : st.critique_severity ≠ Severity.FATAL := by
      rcases hmaj with h | h <;> rw [h] <;> simp
    have hnm : st.critique_severity ≠ Severity.MINOR := by
      rcases hmaj with h | h <;> rw [h] <;> simp
    unfold humanJudge
    rw [if_neg (not_le.mpr hlt), if_neg hnf]
    rcases ho with rfl | rfl | rfl <;>
      (show judgeFallback st.critique_severity st.revision_count = _
       unfold judgeFallback
       rw [if_neg hnm])

/-- Witness for the MINOR branch of C5 at a concrete state. -/
theorem judge_fallback_witness :
    (humanJudge LLMOutcome.noKey
        { initialState "" 3 with critique_severity := Severity.MINOR }).1 =
      { plan_status := PlanStatus.VALIDATED, awaiting_human := false,
        human_override := none, revision_count := some 0 } :=
  ((judge_fallback_and_minor_scenario.1
      { initialState "" 3 with critique_severity := Severity.MINOR }
      LLMOutcome.noKey (by decide) (Or.inl rfl)).1 (by decide))

/-- Claim C6: for each capability, a credential-absence signal, a raised
error, or an empty parse makes the node return the deterministic fallback
result (a result is always produced: the nodes are total functions), and
the recoverable-warning flag is set exactly on a raised error, never on a
credential-absence signal. The judge attempts its primary strategy only
below the cap gates. -/
theorem capability_fallback_selection :
    (∀ (st : AgentState) (o : LLMOutcome (List String)),
      ((o = LLMOutcome.noKey ∨ o = LLMOutcome.raised ∨ o = LLMOutcome.ok []) →
        (extractAssumptions o st).1 =
          { assumption_tree := extractFallback st.business_plan,
            plan_status := PlanStatus.UNDER_REVIEW })
      ∧ ((extractAssumptions o st).2 = true ↔ o = LLMOutcome.raised))
    ∧ (∀ (st : AgentState) (o : LLMOutcome (List CritBlock)),
      ((o = LLMOutcome.noKey ∨ o = LLMOutcome.raised ∨ o = LLMOutcome.ok []) →
        (adversaryCritique o st).1 = advFallback st)
      ∧ ((adversaryCritique o st).2 = true ↔ o = LLMOutcome.raised))
    ∧ (∀ (st : AgentState) (o : LLMOutcome (List Defense)),
      ((o = LLMOutcome.noKey ∨ o = LLMOutcome.raised ∨ o = LLMOutcome.ok []) →
        (proponentRevise o st).1 = propFallback st)
      ∧ ((proponentRevise o st).2 = true ↔ o = LLMOutcome.raised))
    ∧ (∀ (st : AgentState) (o : LLMOutcome (Option (Verdict × String))),
      st.revision_count < st.max_revisions →
      st.critique_severity ≠ Severity.FATAL →
      ((o = LLMOutcome.noKey ∨ o = LLMOutcome.raised ∨ o = LLMOutcome.ok none) →
        (humanJudge o st).1 = judgeFallback st.critique_severity st.revision_count)
      ∧ ((humanJudge o st).2 = true ↔ o = LLMOutcome.raised)) := by
  refine ⟨?_, ?_, ?_, ?_⟩
  · intro st o
    constructor
    · rintro (rfl | rfl | rfl) <;> rfl
    · rcases o with _ | _ | lines
      · simp [extractAssumptions]
      · simp [extractAssumptions]
      · simp only [extractAssumptions]
        split_ifs <;> simp
  · intro st o
    constructor
    · rintro (rfl | rfl | rfl) <;> rfl
    · rcases o with _ | _ | blocks
      · simp [adversaryCritique]
      · simp [adversaryCritique]
      · simp only [adversaryCritique]
        split_ifs <;> simp
  · intro st o
    constructor
    · rintro (rfl | rfl | rfl) <;> rfl
    · rcases o with _ | _ | ds
      · simp [proponentRevise]
      · simp [proponentRevise]
      · simp only [proponentRevise]
        split_ifs <;> simp
  · intro st o hlt hnf
    constructor
    · rintro (rfl | rfl | rfl) <;>
        (unfold humanJudge
         rw [if_neg (not_le.mpr hlt), if_neg hnf])
    · unfold humanJudge
      rw [if_neg (not_le.mpr hlt), if_neg hnf]
      rcases o with _ | _ | v
      · simp
      · simp
      · rcases v with _ | ⟨v, resp⟩
        · simp
        · cases v <;> simp

/-- Witness for C6 at a concrete state and outcome. -/
theorem capability_fallback_witness :
    (adversaryCritique LLMOutcome.noKey (initialState "" 3)).1 =
      advFallback (initialState "" 3) :=
  (capability_fallback_selection.2.1 (initialState "" 3) LLMOutcome.noKey).1 (Or.inl rfl)

/-- Counterexample for C6 as originally stated: a primary reply with zero
parsed blocks is a non-credential failure, yet at this concrete state and
outcome every capability falls back with its warning flag false — no
recoverable warning is surfaced — while the adversary demonstrably uses
the deterministic fallback result. -/
theorem capability_empty_parse_silent_counterexample :
    (extractAssumptions (LLMOutcome.ok []) (initialState "" 3)).2 = false
    ∧ (adversaryCritique (LLMOutcome.ok []) (initialState "" 3)).2 = false
    ∧ (proponentRevise (LLMOutcome.ok []) (initialState "" 3)).2 = false
    ∧ (humanJudge (LLMOutcome.ok none) (initialState "" 3)).2 = false
    ∧ (adversaryCritique (LLMOutcome.ok []) (initialState "" 3)).1 =
        advFallback (initialState "" 3) :=
  ⟨rfl, rfl, rfl, rfl, rfl⟩

/-- Claim C9: in every state a run passes through, from the initial state
through every update applied by extraction, retrieval, critique, defense
and judge, awaiting_human true implies plan status BROKEN. -/
theorem awaiting_human_implies_broken (env : Env) (ratio : String → String → ℚ)
    (db : List RealityFact) (plan : String) (maxRev : Nat) :
    ∀ s ∈ stressTestTrace env ratio db plan maxRev,
      s.awaiting_human = true → s.plan_status = PlanStatus.BROKEN := by
  intro s hs
  simp only [stressTestTrace, mockInvokeTrace] at hs
  have hs' : s = initialState plan maxRev
      ∨ s = stepExtract env (initialState plan maxRev)
      ∨ s = stepRetrieve ratio db (stepExtract env (initialState plan maxRev))
      ∨ s ∈ debateLoopTrace env
          ((stepRetrieve ratio db (stepExtract env (initialState plan maxRev))).max_revisions + 1)
          0 (stepRetrieve ratio db (stepExtract env (initialState plan maxRev))) := by
    simpa using hs
  have hinit : (initialState plan maxRev).awaiting_human = false := rfl
  rcases hs' with h | h | h | h
  · intro ha; rw [h] at ha; rw [ha] at hinit; exact absurd hinit (by simp)
  · intro ha; rw [h] at ha
    have : (stepExtract env (initialState plan maxRev)).awaiting_human = false := rfl
    rw [ha] at this; exact absurd this (by simp)
  · intro ha; rw [h] at ha
    have : (stepRetrieve ratio db (stepExtract env (initialState plan maxRev))).awaiting_human
        = false := rfl
    rw [ha] at this; exact absurd this (by simp)
  · exact debateLoopTrace_inv env _ 0
      (stepRetrieve ratio db (stepExtract env (initialState plan maxRev))) rfl s h

/-- Witness for C9 at the final state of a concrete cap-gated run. -/
theorem awaiting_broken_witness :
    (stressTestPlan envTwoMajors ratioZero [] "" 1).raw_state.plan_status =
      PlanStatus.BROKEN :=
  awaiting_human_implies_broken envTwoMajors ratioZero [] "" 1
    (stressTestPlan envTwoMajors ratioZero [] "" 1).raw_state (by decide) (by decide)

/-- Claim C10: the mock debate loop runs at most max_revisions + 1
critique iterations (its iteration bound is the Python range bound, so the
embedded loop is structurally total), appending at most max_revisions + 1
rounds to the critique history and at most max_revisions + 1 rounds to
the defense history. -/
theorem mock_invoke_round_bounds (env : Env) (ratio : String → String → ℚ)
    (db : List RealityFact) (st : AgentState) :
    (mockInvoke env ratio db st).critique_history.length
        ≤ st.critique_history.length + (st.max_revisions + 1)
    ∧ (mockInvoke env ratio db st).defense_history.length
        ≤ st.defense_history.length + (st.max_revisions + 1) := by
  have h := debateLoop_history_bound env
    ((stepRetrieve ratio db (stepExtract env st)).max_revisions + 1) 0
    (stepRetrieve ratio db (stepExtract env st))
  exact ⟨h.1, h.2⟩

end AssumeBreak
